import Mathlib

/-!
Verification of the dual-mode persistence client of the "Framework Hub"
repository (`src/lib/api.ts`): a shallow embedding of the localStorage
fallback path of `buildLogsApi`, `generatedCodeApi` and `statsApi`, of the
health probe `checkApiHealth`, and of a spec-modelled remote store for the
online path (the FastAPI backend `main.py` is not part of the sources, only
its start scripts are).

JavaScript values that matter to the embedded code are modelled explicitly:
an object property that may be absent is an `Option String` (`none` =
missing/undefined), JS truthiness of such a field (`undefined` and `""` are
falsy) is `truthy`, and `a || b` on fields is `jsOr`.  `localStorage`
contents for one collection are a `StoredJson`: absent key, a well-formed
JSON array of records, or a string `JSON.parse` rejects.  Operations that
can throw return `Except String`.
-/

namespace FrameworkHub

/-- A JS object property that may be absent: `none` models a missing or
`undefined` property, `some s` a string value. -/
abbrev JField := Option String

/-- JS truthiness of an optional string property: `undefined` and the empty
string are falsy, every other string is truthy. -/
def truthy : JField → Bool
  | none => false
  | some s => !(s == "")

/-- The JS expression `a || b` on two optional string properties: yields `a`
when `a` is truthy, otherwise `b`. -/
def jsOr (a b : JField) : JField := if truthy a then a else b

/-- A raw record of the `"pipelines"` localStorage collection, with every
property optional (an arbitrary JSON object may lack any of them).  Both the
canonical snake_case spellings and the legacy camelCase spellings
(`startTime`, `endTime`, `jenkinsJob`) read by the fallback path are
present.  The `config` blob is opaque to `api.ts`; it is modelled by its
serialized form. -/
structure RawPipeline where
  id : JField
  build_id : JField
  type : JField
  status : JField
  start_time : JField
  startTime : JField
  end_time : JField
  endTime : JField
  config : JField
  command : JField
  jenkins_job : JField
  jenkinsJob : JField
  output_log : JField
deriving DecidableEq, Repr, Inhabited

/-- The `BuildLog` input type of `api.ts` (`create`'s argument): required
string fields plus the optional `end_time`, `command`, `output_log`.  The
`config: any` blob is modelled by its serialized form. -/
structure BuildLog where
  build_id : String
  type : String
  status : String
  start_time : String
  end_time : Option String
  config : String
  command : Option String
  jenkins_job : String
  output_log : Option String
deriving DecidableEq, Repr, Inhabited

/-- The object `{...buildLog, id: buildLog.build_id}` built by the fallback
branch of `buildLogsApi.create`: canonical spellings only, `id` set to
`build_id`. -/
def BuildLog.toRaw (b : BuildLog) : RawPipeline :=
  { id := some b.build_id
    build_id := some b.build_id
    type := some b.type
    status := some b.status
    start_time := some b.start_time
    startTime := none
    end_time := b.end_time
    endTime := none
    config := some b.config
    command := b.command
    jenkins_job := some b.jenkins_job
    jenkinsJob := none
    output_log := b.output_log }

/-- A raw record of the `"generatedCodes"` localStorage collection; every
property optional, as for `RawPipeline`. -/
structure RawCode where
  id : JField
  language : JField
  type : JField
  code : JField
  description : JField
  created_at : JField
deriving DecidableEq, Repr

/-- The `GeneratedCode` input of `generatedCodeApi.create`
(`Omit<GeneratedCode, "id" | "created_at">`). -/
structure GeneratedCodeInput where
  language : String
  type : String
  code : String
  description : String
deriving DecidableEq, Repr

/-- The object `{...code, id: Date.now().toString(), created_at: new
Date().toISOString()}` built by the fallback branch of
`generatedCodeApi.create`; the id and timestamp are environment inputs. -/
def GeneratedCodeInput.toRaw (c : GeneratedCodeInput) (newId createdAt : String) :
    RawCode :=
  { id := some newId
    language := some c.language
    type := some c.type
    code := some c.code
    description := some c.description
    created_at := some createdAt }

/-- The string stored under one localStorage collection key, as seen by
`JSON.parse(localStorage.getItem(key) || "[]")`: the key may be absent
(`getItem` returns null), hold a well-formed JSON array of records, or hold
a string `JSON.parse` throws on. -/
inductive StoredJson (α : Type) where
  | absent : StoredJson α
  | wellFormed : List α → StoredJson α
  | malformed : StoredJson α
deriving DecidableEq, Repr

/-- `JSON.parse(localStorage.getItem(key) || "[]")`: an absent key parses as
the empty array (via `|| "[]"`), a well-formed array parses to its records,
and a malformed string makes `JSON.parse` throw a SyntaxError — the call is
not wrapped in try/catch, so the error propagates. -/
def readCollection {α : Type} : StoredJson α → Except String (List α)
  | .absent => .ok []
  | .wellFormed l => .ok l
  | .malformed => .error "SyntaxError: JSON.parse"

/-- The browser localStorage namespace restricted to the two collection keys
`api.ts` uses. -/
structure LocalStore where
  pipelines : StoredJson RawPipeline
  generatedCodes : StoredJson RawCode
deriving DecidableEq, Repr

/-- The predicate `(p) => p.id === buildId || p.build_id === buildId` used by
the fallback branches of `getById`, `update` and (negated) `delete`. -/
def pipelineMatches (buildId : String) (p : RawPipeline) : Bool :=
  p.id == some buildId || p.build_id == some buildId

/-- The read-side field reconciliation `{...p, start_time: p.startTime ||
p.start_time, end_time: p.endTime || p.end_time, jenkins_job: p.jenkinsJob
|| p.jenkins_job}` applied by the fallback branches of `buildLogsApi.getAll`
and `buildLogsApi.getById`. -/
def normalizePipeline (p : RawPipeline) : RawPipeline :=
  { p with
    start_time := jsOr p.startTime p.start_time
    end_time := jsOr p.endTime p.end_time
    jenkins_job := jsOr p.jenkinsJob p.jenkins_job }

/-- Result of a create: `{ id, message }`. -/
structure CreateResp where
  id : String
  message : String
deriving DecidableEq, Repr

/-- Result of an update / delete / clear: `{ message }`. -/
structure MsgResp where
  message : String
deriving DecidableEq, Repr

/-- Fallback branch of `buildLogsApi.create`: parse the `"pipelines"`
collection, unshift `{...buildLog, id: buildLog.build_id}`, write it back,
and return `{id: buildLog.build_id, message: "Build log created (offline
mode)"}`. -/
def buildLogCreateFallback (b : BuildLog) (s : LocalStore) :
    Except String (CreateResp × LocalStore) := do
  let existing ← readCollection s.pipelines
  let s' := { s with pipelines := .wellFormed (b.toRaw :: existing) }
  return ({ id := b.build_id, message := "Build log created (offline mode)" }, s')

/-- Optional query parameters of `buildLogsApi.getAll`. -/
structure BuildLogParams where
  skip : Option Nat
  limit : Option Nat
  status : Option String
  type : Option String
deriving DecidableEq, Repr

/-- Fallback branch of `buildLogsApi.getAll`: parse the `"pipelines"`
collection and map the field reconciliation over it.  The query parameters
are not consulted by this branch. -/
def buildLogGetAllFallback (_params : Option BuildLogParams) (s : LocalStore) :
    Except String (List RawPipeline) := do
  let pipelines ← readCollection s.pipelines
  return pipelines.map normalizePipeline

/-- Fallback branch of `buildLogsApi.getById`: parse the collection, find the
first record matching on `id` or `build_id`, throw "Build log not found" if
none, else return it with fields reconciled. -/
def buildLogGetByIdFallback (buildId : String) (s : LocalStore) :
    Except String RawPipeline := do
  let pipelines ← readCollection s.pipelines
  match pipelines.find? (pipelineMatches buildId) with
  | none => .error "Build log not found"
  | some p => return normalizePipeline p

/-- The update payload of `buildLogsApi.update`: each field is a JS object
key that is either absent (`none`) or present with a string value. -/
structure UpdateData where
  status : Option String
  end_time : Option String
  output_log : Option String
deriving DecidableEq, Repr

/-- The effect of the JS spread on one key: a key present in the update
payload overrides the stored value, an absent key leaves it. -/
def overrideF (v : Option String) (old : JField) : JField :=
  match v with
  | some x => some x
  | none => old

/-- The JS merge `{...p, ...data}`: a key present in `data` overrides the
stored value, an absent key leaves it. -/
def applyUpdate (p : RawPipeline) (d : UpdateData) : RawPipeline :=
  { p with
    status := overrideF d.status p.status
    end_time := overrideF d.end_time p.end_time
    output_log := overrideF d.output_log p.output_log }

/-- Fallback branch of `buildLogsApi.update`: parse the collection, find the
index of the first record matching on `id` or `build_id`; when found, merge
the payload into it and write the collection back; when not found, leave the
store untouched.  Either way return `{message: "Build log updated (offline
mode)"}`. -/
def buildLogUpdateFallback (buildId : String) (d : UpdateData) (s : LocalStore) :
    Except String (MsgResp × LocalStore) := do
  let pipelines ← readCollection s.pipelines
  let s' :=
    match pipelines.findIdx? (pipelineMatches buildId) with
    | none => s
    | some i =>
      { s with pipelines := .wellFormed (pipelines.set i (applyUpdate pipelines[i]! d)) }
  return ({ message := "Build log updated (offline mode)" }, s')

/-- Fallback branch of `buildLogsApi.delete`: parse the collection, keep the
records matching on neither `id` nor `build_id`, write back. -/
def buildLogDeleteFallback (buildId : String) (s : LocalStore) :
    Except String (MsgResp × LocalStore) := do
  let pipelines ← readCollection s.pipelines
  let filtered := pipelines.filter (fun p => !(pipelineMatches buildId p))
  let s' := { s with pipelines := .wellFormed filtered }
  return ({ message := "Build log deleted (offline mode)" }, s')

/-- Fallback branch of `buildLogsApi.clearAll`: overwrite the collection with
the empty array. -/
def buildLogClearAllFallback (s : LocalStore) : MsgResp × LocalStore :=
  ({ message := "All build logs cleared (offline mode)" },
   { s with pipelines := .wellFormed [] })

/-- Fallback branch of `generatedCodeApi.create`: parse the
`"generatedCodes"` collection, unshift the new record (whose `id` is
`Date.now().toString()` and `created_at` is `new Date().toISOString()`,
both environment inputs here), and when the result exceeds 10 records drop
everything past index 9 (`splice(10)`). -/
def codeCreateFallback (c : GeneratedCodeInput) (newId createdAt : String)
    (s : LocalStore) : Except String (CreateResp × LocalStore) := do
  let existing ← readCollection s.generatedCodes
  let unshifted := c.toRaw newId createdAt :: existing
  let codes := if unshifted.length > 10 then unshifted.take 10 else unshifted
  let s' := { s with generatedCodes := .wellFormed codes }
  return ({ id := newId, message := "Generated code saved (offline mode)" }, s')

/-- Optional query parameters of `generatedCodeApi.getAll`. -/
structure CodeParams where
  skip : Option Nat
  limit : Option Nat
deriving DecidableEq, Repr

/-- The JS expression `params?.limit || 10`: absent params, absent limit and
a limit of 0 (falsy) all yield 10. -/
def effectiveLimit : Option CodeParams → Nat
  | none => 10
  | some ps =>
    match ps.limit with
    | none => 10
    | some n => if n == 0 then 10 else n

/-- Fallback branch of `generatedCodeApi.getAll`: parse the collection and
return `codes.slice(0, params?.limit || 10)`. -/
def codeGetAllFallback (params : Option CodeParams) (s : LocalStore) :
    Except String (List RawCode) := do
  let codes ← readCollection s.generatedCodes
  return codes.take (effectiveLimit params)

/-- Fallback branch of `generatedCodeApi.getById`: parse the collection,
find the first record with matching `id`, throw "Generated code not found"
if none. -/
def codeGetByIdFallback (codeId : String) (s : LocalStore) :
    Except String RawCode := do
  let codes ← readCollection s.generatedCodes
  match codes.find? (fun c => c.id == some codeId) with
  | none => .error "Generated code not found"
  | some c => return c

/-- Fallback branch of `generatedCodeApi.delete`: keep the records whose
`id` differs, write back. -/
def codeDeleteFallback (codeId : String) (s : LocalStore) :
    Except String (MsgResp × LocalStore) := do
  let codes ← readCollection s.generatedCodes
  let filtered := codes.filter (fun c => !(c.id == some codeId))
  let s' := { s with generatedCodes := .wellFormed filtered }
  return ({ message := "Generated code deleted (offline mode)" }, s')

/-- Fallback branch of `generatedCodeApi.clearAll`. -/
def codeClearAllFallback (s : LocalStore) : MsgResp × LocalStore :=
  ({ message := "All generated code cleared (offline mode)" },
   { s with generatedCodes := .wellFormed [] })

/-- The `by_type` bucket counts of the stats payload. -/
structure ByType where
  jtaf : Nat
  floating : Nat
  os_making : Nat
deriving DecidableEq, Repr

/-- The `build_logs` part of the stats payload. -/
structure BuildLogStats where
  total : Nat
  running : Nat
  completed : Nat
  failed : Nat
  by_type : ByType
deriving DecidableEq, Repr

/-- The `generated_code` part of the stats payload. -/
structure GeneratedCodeStats where
  total : Nat
  limit : Nat
deriving DecidableEq, Repr

/-- The `Stats` payload of `statsApi.get`. -/
structure Stats where
  build_logs : BuildLogStats
  generated_code : GeneratedCodeStats
deriving DecidableEq, Repr

/-- Fallback branch of `statsApi.get`: parse both collections and recompute
every count in memory by filtering, with the generated-code `limit` fixed at
10. -/
def statsGetFallback (s : LocalStore) : Except String Stats := do
  let pipelines ← readCollection s.pipelines
  let codes ← readCollection s.generatedCodes
  return {
      build_logs :=
        { total := pipelines.length
          running := (pipelines.filter (fun p => p.status == some "running")).length
          completed := (pipelines.filter (fun p => p.status == some "completed")).length
          failed := (pipelines.filter (fun p => p.status == some "failed")).length
          by_type :=
            { jtaf := (pipelines.filter (fun p => p.type == some "JTAF Framework")).length
              floating := (pipelines.filter (fun p => p.type == some "Floating Framework")).length
              os_making := (pipelines.filter (fun p => p.type == some "OS Making")).length } }
      generated_code := { total := codes.length, limit := 10 } }

/-- The outcome of the single `fetch` issued by `checkApiHealth`: either the
promise resolves to a response with some HTTP status code, or it rejects
(network error, DNS failure, transport timeout, ...). -/
inductive FetchOutcome where
  | response : Nat → FetchOutcome
  | rejected : FetchOutcome
deriving DecidableEq, Repr

/-- The `Response.ok` getter of the fetch API: true exactly when the status
is in the 2xx range. -/
def responseOk (status : Nat) : Bool := 200 ≤ status && status ≤ 299

/-- `checkApiHealth`: await the fetch inside try/catch; return `response.ok`
on a resolved response and `false` when the promise rejects.  Total — the
function itself never throws. -/
def checkApiHealth : FetchOutcome → Bool
  | .response status => responseOk status
  | .rejected => false

/-- Modelled from the spec: a Build Log record held by the remote document
store, canonical field names, with the server-kept `id`.  The backend server
(`main.py`) is not among the sources; §3 and §6 of the spec describe its
records as the canonical `BuildLog` shape plus an `id`. -/
structure RemoteBuildLog where
  id : String
  log : BuildLog
deriving DecidableEq, Repr, Inhabited

/-- Modelled from the spec: the remote document store's Build Log
collection. -/
structure RemoteStore where
  buildLogs : List RemoteBuildLog
deriving DecidableEq, Repr

/-- Modelled from the spec: `POST /build-logs` stores the posted record with
a server-assigned id (an environment input here) and answers
`{id, message}`. -/
def remoteCreate (b : BuildLog) (serverId : String) (r : RemoteStore) :
    CreateResp × RemoteStore :=
  ({ id := serverId, message := "Build log created" },
   { r with buildLogs := r.buildLogs ++ [{ id := serverId, log := b }] })

/-- Modelled from the spec: how the remote store addresses a record by the
`{id}` path parameter — by its server id or its `build_id` (§8's laws
address records by `build_id`). -/
def remoteMatches (buildId : String) (q : RemoteBuildLog) : Bool :=
  q.id == buildId || q.log.build_id == buildId

/-- Modelled from the spec: `GET /build-logs/{id}` answers the stored record
addressed by the path parameter (matching its id or its `build_id`; §8's
round-trip and update laws address records by `build_id`), already in
canonical form, or fails when absent (`getById` "fails with NotFound if
absent in either mode", §4.4). -/
def remoteGetById (buildId : String) (r : RemoteStore) :
    Except String RemoteBuildLog :=
  match r.buildLogs.find? (remoteMatches buildId) with
  | none => .error "Failed to fetch build log"
  | some q => .ok q

/-- Modelled from the spec: `PUT /build-logs/{id}` "merges partial fields
into the stored record" (§4.4; the updatable fields are status, end_time,
output_log, §6), failing when the record is absent. -/
def remoteMerge (q : RemoteBuildLog) (d : UpdateData) : RemoteBuildLog :=
  { q with log :=
    { q.log with
      status := match d.status with | some v => v | none => q.log.status
      end_time := overrideF d.end_time q.log.end_time
      output_log := overrideF d.output_log q.log.output_log } }

/-- Modelled from the spec: `PUT /build-logs/{id}` merges the posted fields
into the addressed record in place. -/
def remoteUpdate (buildId : String) (d : UpdateData) (r : RemoteStore) :
    Except String (MsgResp × RemoteStore) :=
  match r.buildLogs.findIdx? (remoteMatches buildId) with
  | none => .error "Failed to update build log"
  | some i =>
    .ok ({ message := "Build log updated" },
         { r with buildLogs := r.buildLogs.set i (remoteMerge r.buildLogs[i]! d) })

/-- A canonical-fields view of a Build Log record, used to compare what a
read returns against what was written, across both modes. -/
structure Canonical where
  build_id : JField
  type : JField
  status : JField
  start_time : JField
  end_time : JField
  config : JField
  command : JField
  jenkins_job : JField
  output_log : JField
deriving DecidableEq, Repr

/-- The canonical fields of a raw fallback record (as returned by a read
path, after reconciliation). -/
def RawPipeline.canon (p : RawPipeline) : Canonical :=
  { build_id := p.build_id
    type := p.type
    status := p.status
    start_time := p.start_time
    end_time := p.end_time
    config := p.config
    command := p.command
    jenkins_job := p.jenkins_job
    output_log := p.output_log }

/-- The canonical fields of a `BuildLog` input. -/
def BuildLog.canon (b : BuildLog) : Canonical :=
  { build_id := some b.build_id
    type := some b.type
    status := some b.status
    start_time := some b.start_time
    end_time := b.end_time
    config := some b.config
    command := b.command
    jenkins_job := some b.jenkins_job
    output_log := b.output_log }

/-- The canonical fields of a remote record, as a remote `getById` returns
them verbatim. -/
def RemoteBuildLog.canon (rec : RemoteBuildLog) : Canonical := rec.log.canon

/-- The full state the dual-mode client acts on: the remote store (spec-
modelled) and the browser localStorage. -/
structure World where
  remote : RemoteStore
  store : LocalStore
deriving DecidableEq, Repr

/-- Dual-mode `buildLogsApi.create`: probe, then branch.  `probe` is the
outcome of this call's health check; `serverId` the id the server would
assign on the online path. -/
def buildLogsCreate (probe : FetchOutcome) (b : BuildLog) (serverId : String)
    (w : World) : Except String (CreateResp × World) :=
  if !(checkApiHealth probe) then do
    let (resp, s') ← buildLogCreateFallback b w.store
    return (resp, { w with store := s' })
  else
    let (resp, r') := remoteCreate b serverId w.remote
    .ok (resp, { w with remote := r' })

/-- Dual-mode `buildLogsApi.getById`, returning the canonical fields of the
record the active path answers with. -/
def buildLogsGetById (probe : FetchOutcome) (buildId : String) (w : World) :
    Except String Canonical :=
  if !(checkApiHealth probe) then do
    let p ← buildLogGetByIdFallback buildId w.store
    return p.canon
  else do
    let q ← remoteGetById buildId w.remote
    return q.canon

/-- Dual-mode `buildLogsApi.update`: probe, then branch. -/
def buildLogsUpdate (probe : FetchOutcome) (buildId : String) (d : UpdateData)
    (w : World) : Except String (MsgResp × World) :=
  if !(checkApiHealth probe) then do
    let (m, s') ← buildLogUpdateFallback buildId d w.store
    return (m, { w with store := s' })
  else do
    let (m, r') ← remoteUpdate buildId d w.remote
    return (m, { w with remote := r' })

/-- Run a sequence of offline `generatedCodeApi.create` calls in order; each
list entry carries the input together with the id and timestamp the
environment hands that call. -/
def codeCreateSeq : List (GeneratedCodeInput × String × String) → LocalStore →
    Except String LocalStore
  | [], s => .ok s
  | (c, i, t) :: rest, s => do
    let (_, s') ← codeCreateFallback c i t s
    codeCreateSeq rest s'

/-- A concrete Build Log input (the spec's §8 example scenario). -/
def exInput : BuildLog :=
  { build_id := "JTAF-1"
    type := "JTAF Framework"
    status := "running"
    start_time := "2024-01-01T00:00:00Z"
    end_time := none
    config := "\x7b\x7d"
    command := none
    jenkins_job := "jtaf-pipeline"
    output_log := none }

/-- A concrete raw record stored under the legacy camelCase convention, with
a truthy `endTime`. -/
def exCamel : RawPipeline :=
  { id := some "X"
    build_id := none
    type := some "JTAF Framework"
    status := some "running"
    start_time := none
    startTime := some "2024-01-01T00:00:00Z"
    end_time := none
    endTime := some "2024-01-01T00:05:00Z"
    config := none
    command := none
    jenkins_job := none
    jenkinsJob := some "jtaf-pipeline"
    output_log := none }

/-- A concrete raw record under the camelCase convention whose `startTime`
holds the empty string (present, but JS-falsy). -/
def exCamelEmpty : RawPipeline :=
  { exCamel with id := some "Y", startTime := some "" }

/-- A concrete store holding just `exCamel` in the pipelines collection. -/
def exCamelStore : LocalStore :=
  { pipelines := .wellFormed [exCamel], generatedCodes := .absent }

/-- A concrete store holding just `exCamelEmpty`. -/
def exCamelEmptyStore : LocalStore :=
  { pipelines := .wellFormed [exCamelEmpty], generatedCodes := .absent }

/-- A concrete store whose pipelines key holds a string `JSON.parse`
rejects. -/
def exMalformedStore : LocalStore :=
  { pipelines := .malformed, generatedCodes := .absent }

/-- An empty, well-formed store. -/
def exEmptyStore : LocalStore :=
  { pipelines := .wellFormed [], generatedCodes := .wellFormed [] }

/-- A concrete generated-code input. -/
def exCode (k : Nat) : GeneratedCodeInput :=
  { language := "python"
    type := "api"
    code := "print(1)"
    description := "snippet " ++ toString k }

/-- One concrete offline create call: the input, the environment-assigned id
`toString k`, and a fixed timestamp. -/
def exTriple (k : Nat) : GeneratedCodeInput × String × String :=
  (exCode k, toString k, "2024-01-01T00:00:00Z")

/-- A concrete update payload that sets status and end_time. -/
def exUpdate : UpdateData :=
  { status := some "completed", end_time := some "2024-01-01T00:06:00Z",
    output_log := none }

/-- A concrete update payload that leaves end_time alone. -/
def exUpdateNoEnd : UpdateData :=
  { status := some "failed", end_time := none, output_log := some "boom" }

/-- A concrete world: empty remote store, `exCamel` in localStorage. -/
def exWorld : World :=
  { remote := { buildLogs := [] }, store := exCamelStore }

/-! ## Helper lemmas -/

/-- Scanning a list whose first match sits after a prefix of non-matches:
what `find?`, `findIndex`, indexing and in-place assignment each yield. -/
theorem first_match_decomp {α : Type} [Inhabited α] (pred : α → Bool)
    (l₁ : List α) (p : α) (l₂ : List α)
    (h₁ : ∀ q ∈ l₁, pred q = false) (hp : pred p = true) :
    (l₁ ++ p :: l₂).find? pred = some p ∧
    (l₁ ++ p :: l₂).findIdx? pred = some l₁.length ∧
    (l₁ ++ p :: l₂)[l₁.length]! = p ∧
    ∀ x : α, (l₁ ++ p :: l₂).set l₁.length x = l₁ ++ x :: l₂ := by
  induction l₁ with
  | nil =>
    refine ⟨List.find?_cons_of_pos _ hp, ?_, by simp, fun x => by simp⟩
    simp [List.findIdx?_cons, hp]
  | cons a t ih =>
    have ha : pred a = false := h₁ a (by simp)
    obtain ⟨f1, f2, f3, f4⟩ := ih (fun q hq => h₁ q (by simp [hq]))
    refine ⟨?_, ?_, ?_, fun x => ?_⟩
    · simpa [List.find?_cons, ha] using f1
    · simp [List.findIdx?_cons, ha, List.findIdx?_succ, f2]
    · simpa using f3
    · simp [f4 x]

/-- Field reconciliation does not touch the identifying fields. -/
theorem normalizePipeline_id (p : RawPipeline) :
    (normalizePipeline p).id = p.id ∧ (normalizePipeline p).build_id = p.build_id :=
  ⟨rfl, rfl⟩

/-- Computation rule: binding a successful `Except` runs the continuation. -/
theorem exceptBind_ok {ε α β : Type} (a : α) (f : α → Except ε β) :
    (Except.ok a >>= f : Except ε β) = f a := rfl

/-- Computation rule: binding a failed `Except` short-circuits. -/
theorem exceptBind_error {ε α β : Type} (e : ε) (f : α → Except ε β) :
    (Except.error e >>= f : Except ε β) = Except.error e := rfl

/-- Computation rule: `pure` on `Except` is `.ok`. -/
theorem exceptPure {ε α : Type} (a : α) :
    (pure a : Except ε α) = Except.ok a := rfl

/-! ## Claim theorems -/

/-- C7: `checkApiHealth` is a total boolean function of the one fetch
outcome — `true` exactly on a 2xx response, `false` on a rejected promise
(network error or transport timeout) and on every non-2xx status; it never
throws (the `fetch` is wrapped in try/catch). -/
theorem checkApiHealth_spec (o : FetchOutcome) :
    (checkApiHealth o = true ↔ ∃ s, o = .response s ∧ 200 ≤ s ∧ s ≤ 299) ∧
    (checkApiHealth o = false ↔
      o = .rejected ∨ ∃ s, o = .response s ∧ (s < 200 ∨ 299 < s)) := by
  cases o with
  | response s =>
    constructor
    · simp only [checkApiHealth, responseOk]
      constructor
      · intro h
        refine ⟨s, rfl, ?_⟩
        simpa [Bool.and_eq_true, decide_eq_true_eq] using h
      · rintro ⟨s', hs', h1, h2⟩
        cases hs'
        simp [h1, h2]
    · simp only [checkApiHealth, responseOk]
      constructor
      · intro h
        refine Or.inr ⟨s, rfl, ?_⟩
        rcases Bool.and_eq_false_iff.mp h with h' | h' <;>
          simp only [decide_eq_false_iff_not, Nat.not_le] at h'
        · exact Or.inl h'
        · exact Or.inr h'
      · rintro (h | ⟨s', hs', h'⟩)
        · cases h
        · cases hs'
          rcases h' with h' | h' <;> simp [Nat.not_le.mpr h']
  | rejected => simp [checkApiHealth]

/-- C10: the fallback branch of `buildLogsApi.getAll` ignores its filter
parameters — any combination of skip, limit, status and type returns the
full reconciled contents of the "pipelines" collection, identical to a
parameterless call. -/
theorem getAll_fallback_ignores_params (params : Option BuildLogParams)
    (s : LocalStore) (l : List RawPipeline)
    (h : readCollection s.pipelines = .ok l) :
    buildLogGetAllFallback params s = buildLogGetAllFallback none s ∧
    buildLogGetAllFallback params s = .ok (l.map normalizePipeline) := by
  simp [buildLogGetAllFallback, h]

/-- Witness for C10 at a fully concrete parameter set and store. -/
theorem getAll_fallback_ignores_params_witness :
    buildLogGetAllFallback
        (some { skip := some 3, limit := some 1, status := some "running",
                type := some "JTAF Framework" }) exCamelStore =
      buildLogGetAllFallback none exCamelStore ∧
    buildLogGetAllFallback
        (some { skip := some 3, limit := some 1, status := some "running",
                type := some "JTAF Framework" }) exCamelStore =
      .ok ([exCamel].map normalizePipeline) :=
  getAll_fallback_ignores_params _ exCamelStore [exCamel] rfl

/-- C5: the fallback branch of `buildLogsApi.update` with an id matching no
stored record leaves the store untouched and still answers the success
message "Build log updated (offline mode)". -/
theorem update_missing_id_noop (buildId : String) (d : UpdateData)
    (s : LocalStore) (l : List RawPipeline)
    (h : readCollection s.pipelines = .ok l)
    (hmiss : ∀ p ∈ l, pipelineMatches buildId p = false) :
    buildLogUpdateFallback buildId d s =
      .ok ({ message := "Build log updated (offline mode)" }, s) := by
  have hidx : l.findIdx? (pipelineMatches buildId) = none :=
    List.findIdx?_eq_none_iff.mpr hmiss
  simp [buildLogUpdateFallback, h, hidx]

/-- Witness for C5: updating an id absent from a concrete store. -/
theorem update_missing_id_noop_witness :
    buildLogUpdateFallback "Z"
        { status := some "completed", end_time := none, output_log := none }
        exCamelStore =
      .ok ({ message := "Build log updated (offline mode)" }, exCamelStore) :=
  update_missing_id_noop "Z" _ exCamelStore [exCamel] rfl (by decide)

/-- C9: the fallback branch of `statsApi.get` returns exactly the aggregate
computed by scanning the two collections — total, per-status counts, the
three fixed type buckets, and the generated-code total with the limit fixed
at 10. -/
theorem statsGet_offline_spec (s : LocalStore) (ps : List RawPipeline)
    (cs : List RawCode) (hp : readCollection s.pipelines = .ok ps)
    (hc : readCollection s.generatedCodes = .ok cs) :
    statsGetFallback s = .ok
      { build_logs :=
          { total := ps.length
            running := ps.countP (fun p => p.status == some "running")
            completed := ps.countP (fun p => p.status == some "completed")
            failed := ps.countP (fun p => p.status == some "failed")
            by_type :=
              { jtaf := ps.countP (fun p => p.type == some "JTAF Framework")
                floating := ps.countP (fun p => p.type == some "Floating Framework")
                os_making := ps.countP (fun p => p.type == some "OS Making") } }
        generated_code := { total := cs.length, limit := 10 } } := by
  simp only [statsGetFallback, hp, hc, List.countP_eq_length_filter]
  rfl

/-- Witness for C9 at a concrete store holding one pipeline record and no
generated code. -/
theorem statsGet_offline_spec_witness :
    statsGetFallback exCamelStore = .ok
      { build_logs :=
          { total := [exCamel].length
            running := [exCamel].countP (fun p => p.status == some "running")
            completed := [exCamel].countP (fun p => p.status == some "completed")
            failed := [exCamel].countP (fun p => p.status == some "failed")
            by_type :=
              { jtaf := [exCamel].countP (fun p => p.type == some "JTAF Framework")
                floating := [exCamel].countP (fun p => p.type == some "Floating Framework")
                os_making := [exCamel].countP (fun p => p.type == some "OS Making") } }
        generated_code := { total := ([] : List RawCode).length, limit := 10 } } :=
  statsGet_offline_spec exCamelStore [exCamel] [] rfl rfl

/-- C3 counterexample: when the "pipelines" key holds a string `JSON.parse`
rejects, the fallback read paths fail with the parse error instead of
treating the collection as empty. -/
theorem malformed_store_throws :
    buildLogGetAllFallback none exMalformedStore = .error "SyntaxError: JSON.parse" ∧
    buildLogGetByIdFallback "X" exMalformedStore = .error "SyntaxError: JSON.parse" ∧
    statsGetFallback exMalformedStore = .error "SyntaxError: JSON.parse" :=
  ⟨rfl, rfl, rfl⟩

/-- C3 (amended): an absent collection is read as the empty sequence by the
fallback read paths, but a malformed stored string makes the read fail with
the JSON.parse error — the parse sits outside any try/catch. -/
theorem fallback_read_absent_vs_malformed (s : LocalStore) (bid cid : String)
    (params : Option BuildLogParams) (cparams : Option CodeParams) :
    (s.pipelines = .absent →
      buildLogGetAllFallback params s = .ok [] ∧
      buildLogGetByIdFallback bid s = .error "Build log not found") ∧
    (s.pipelines = .malformed →
      buildLogGetAllFallback params s = .error "SyntaxError: JSON.parse" ∧
      buildLogGetByIdFallback bid s = .error "SyntaxError: JSON.parse") ∧
    (s.generatedCodes = .absent →
      codeGetAllFallback cparams s = .ok [] ∧
      codeGetByIdFallback cid s = .error "Generated code not found") ∧
    (s.generatedCodes = .malformed →
      codeGetAllFallback cparams s = .error "SyntaxError: JSON.parse" ∧
      codeGetByIdFallback cid s = .error "SyntaxError: JSON.parse") := by
  refine ⟨fun h => ?_, fun h => ?_, fun h => ?_, fun h => ?_⟩ <;>
    simp [buildLogGetAllFallback, buildLogGetByIdFallback, codeGetAllFallback,
      codeGetByIdFallback, readCollection, h, exceptBind_ok, exceptBind_error,
      exceptPure]

/-- C6: after a fallback delete, getById on the deleted id fails with the
not-found error and getAll returns no record carrying that id — for Build
Logs and for Generated Code records alike. -/
theorem delete_law (buildId codeId : String) (s : LocalStore)
    (ps : List RawPipeline) (cs : List RawCode)
    (hp : readCollection s.pipelines = .ok ps)
    (hc : readCollection s.generatedCodes = .ok cs) :
    (∃ s₁, buildLogDeleteFallback buildId s =
        .ok ({ message := "Build log deleted (offline mode)" }, s₁) ∧
      buildLogGetByIdFallback buildId s₁ = .error "Build log not found" ∧
      ∃ out, buildLogGetAllFallback none s₁ = .ok out ∧
        ∀ q ∈ out, q.id ≠ some buildId ∧ q.build_id ≠ some buildId) ∧
    (∃ s₂, codeDeleteFallback codeId s =
        .ok ({ message := "Generated code deleted (offline mode)" }, s₂) ∧
      codeGetByIdFallback codeId s₂ = .error "Generated code not found" ∧
      ∀ cparams, ∃ out, codeGetAllFallback cparams s₂ = .ok out ∧
        ∀ c ∈ out, c.id ≠ some codeId) := by
  constructor
  · refine ⟨{ s with pipelines := StoredJson.wellFormed (ps.filter fun p => !(pipelineMatches buildId p)) }, ?_, ?_, ?_⟩
    · simp [buildLogDeleteFallback, hp, exceptBind_ok, exceptPure]
    · have hnone : (ps.filter fun p => !(pipelineMatches buildId p)).find?
          (pipelineMatches buildId) = none := by
        rw [List.find?_eq_none]
        intro x hx
        have hx2 := (List.mem_filter.mp hx).2
        simp only [Bool.not_eq_true'] at hx2
        simp [hx2]
      simp [buildLogGetByIdFallback, readCollection, hnone, exceptBind_ok]
    · refine ⟨(ps.filter fun p => !(pipelineMatches buildId p)).map normalizePipeline,
        by simp [buildLogGetAllFallback, readCollection, exceptBind_ok, exceptPure], ?_⟩
      intro q hq
      rw [List.mem_map] at hq
      obtain ⟨p, hpm, rfl⟩ := hq
      have hnm := (List.mem_filter.mp hpm).2
      simp only [Bool.not_eq_true', pipelineMatches, Bool.or_eq_false_iff,
        beq_eq_false_iff_ne, ne_eq] at hnm
      exact ⟨hnm.1, hnm.2⟩
  · refine ⟨{ s with generatedCodes := StoredJson.wellFormed (cs.filter fun c => !(c.id == some codeId)) }, ?_, ?_, ?_⟩
    · simp [codeDeleteFallback, hc, exceptBind_ok, exceptPure]
    · have hnone : (cs.filter fun c => !(c.id == some codeId)).find?
          (fun c => c.id == some codeId) = none := by
        rw [List.find?_eq_none]
        intro x hx
        have hx2 := (List.mem_filter.mp hx).2
        simp only [Bool.not_eq_true'] at hx2
        simp [hx2]
      simp [codeGetByIdFallback, readCollection, hnone, exceptBind_ok]
    · intro cparams
      refine ⟨(cs.filter fun c => !(c.id == some codeId)).take (effectiveLimit cparams),
        by simp [codeGetAllFallback, readCollection, exceptBind_ok, exceptPure], ?_⟩
      intro c hcmem
      have hcf := List.mem_of_mem_take hcmem
      have hnm := (List.mem_filter.mp hcf).2
      simp only [Bool.not_eq_true', beq_eq_false_iff_ne, ne_eq] at hnm
      exact hnm

/-- Witness for C6: deleting from a concrete store. -/
theorem delete_law_witness :
    (∃ s₁, buildLogDeleteFallback "X" exCamelStore =
        .ok ({ message := "Build log deleted (offline mode)" }, s₁) ∧
      buildLogGetByIdFallback "X" s₁ = .error "Build log not found" ∧
      ∃ out, buildLogGetAllFallback none s₁ = .ok out ∧
        ∀ q ∈ out, q.id ≠ some "X" ∧ q.build_id ≠ some "X") ∧
    (∃ s₂, codeDeleteFallback "17" exCamelStore =
        .ok ({ message := "Generated code deleted (offline mode)" }, s₂) ∧
      codeGetByIdFallback "17" s₂ = .error "Generated code not found" ∧
      ∀ cparams, ∃ out, codeGetAllFallback cparams s₂ = .ok out ∧
        ∀ c ∈ out, c.id ≠ some "17") :=
  delete_law "X" "17" exCamelStore [exCamel] [] rfl rfl

/-- C8 counterexample: a record stored under the camelCase convention whose
`startTime` holds the empty string (present, JS-falsy) is read back with
`start_time` absent rather than populated from the present spelling. -/
theorem reconciliation_falsy_counterexample :
    ∃ q, buildLogGetAllFallback none exCamelEmptyStore = .ok [q] ∧
      exCamelEmpty.startTime = some "" ∧ exCamelEmpty.start_time = none ∧
      q.start_time = none ∧ q.start_time ≠ exCamelEmpty.startTime :=
  ⟨normalizePipeline exCamelEmpty, rfl, rfl, rfl, rfl, by decide⟩

/-- C8 (amended): every fallback read returns the reconciled records, and the
canonical fields are populated from whichever spelling is present — except
that a JS-falsy camelCase value (the empty string) counts as absent, in
which case the snake_case value (or absence) is what comes back. -/
theorem field_reconciliation_law (s : LocalStore) (l : List RawPipeline)
    (bid : String) (params : Option BuildLogParams)
    (h : readCollection s.pipelines = .ok l) :
    buildLogGetAllFallback params s = .ok (l.map normalizePipeline) ∧
    (∀ p, l.find? (pipelineMatches bid) = some p →
      buildLogGetByIdFallback bid s = .ok (normalizePipeline p)) ∧
    (∀ q : RawPipeline,
      (truthy q.startTime = true → (normalizePipeline q).start_time = q.startTime) ∧
      (truthy q.startTime = false → (normalizePipeline q).start_time = q.start_time) ∧
      (truthy q.endTime = true → (normalizePipeline q).end_time = q.endTime) ∧
      (truthy q.endTime = false → (normalizePipeline q).end_time = q.end_time) ∧
      (truthy q.jenkinsJob = true → (normalizePipeline q).jenkins_job = q.jenkinsJob) ∧
      (truthy q.jenkinsJob = false → (normalizePipeline q).jenkins_job = q.jenkins_job)) := by
  refine ⟨by simp [buildLogGetAllFallback, h], fun p hp => ?_, fun q => ?_⟩
  · simp [buildLogGetByIdFallback, h, hp, exceptBind_ok, exceptPure]
  · refine ⟨fun h' => ?_, fun h' => ?_, fun h' => ?_, fun h' => ?_,
      fun h' => ?_, fun h' => ?_⟩ <;> simp [normalizePipeline, jsOr, h']

/-- Witness for C8's amended law at a concrete store: the camelCase record
`exCamel` is reconciled on read. -/
theorem field_reconciliation_law_witness :
    buildLogGetAllFallback none exCamelStore = .ok ([exCamel].map normalizePipeline) ∧
    (∀ p, [exCamel].find? (pipelineMatches "X") = some p →
      buildLogGetByIdFallback "X" exCamelStore = .ok (normalizePipeline p)) ∧
    (∀ q : RawPipeline,
      (truthy q.startTime = true → (normalizePipeline q).start_time = q.startTime) ∧
      (truthy q.startTime = false → (normalizePipeline q).start_time = q.start_time) ∧
      (truthy q.endTime = true → (normalizePipeline q).end_time = q.endTime) ∧
      (truthy q.endTime = false → (normalizePipeline q).end_time = q.end_time) ∧
      (truthy q.jenkinsJob = true → (normalizePipeline q).jenkins_job = q.jenkinsJob) ∧
      (truthy q.jenkinsJob = false → (normalizePipeline q).jenkins_job = q.jenkins_job)) :=
  field_reconciliation_law exCamelStore [exCamel] "X" none rfl

/-- Raw generated-code records built from different environment ids differ. -/
theorem toRaw_ne_of_id_ne (c c' : GeneratedCodeInput) {i i' : String}
    (t t' : String) (h : i ≠ i') : c.toRaw i t ≠ c'.toRaw i' t' := fun he =>
  h (by simpa [GeneratedCodeInput.toRaw] using congrArg RawCode.id he)

/-- C2: an offline generated-code create never leaves more than 10 stored
records, and after 11 offline creates into an initially empty collection
`getAll()` returns exactly the 10 most recently created records — the first
created record (distinguished by its environment id) is absent. -/
theorem generatedCode_cap_law
    (x1 x2 x3 x4 x5 x6 x7 x8 x9 x10 x11 : GeneratedCodeInput × String × String)
    (s : LocalStore) (hinit : s.generatedCodes = .wellFormed [])
    (hfresh : ∀ x ∈ [x2, x3, x4, x5, x6, x7, x8, x9, x10, x11], x.2.1 ≠ x1.2.1) :
    (∀ (c : GeneratedCodeInput) (i t : String) (st : LocalStore) (l : List RawCode),
      readCollection st.generatedCodes = .ok l →
      ∃ r l', codeCreateFallback c i t st =
          .ok (r, { st with generatedCodes := .wellFormed l' }) ∧ l'.length ≤ 10) ∧
    ∃ s', codeCreateSeq [x1, x2, x3, x4, x5, x6, x7, x8, x9, x10, x11] s = .ok s' ∧
      ∃ out, codeGetAllFallback none s' = .ok out ∧
        out = [x11, x10, x9, x8, x7, x6, x5, x4, x3, x2].map
          (fun y => y.1.toRaw y.2.1 y.2.2) ∧
        out.length = 10 ∧
        x1.1.toRaw x1.2.1 x1.2.2 ∉ out := by
  constructor
  · intro c i t st l h1
    refine ⟨{ id := i, message := "Generated code saved (offline mode)" },
      if (c.toRaw i t :: l).length > 10 then (c.toRaw i t :: l).take 10
        else c.toRaw i t :: l, ?_, ?_⟩
    · simp [codeCreateFallback, h1, exceptBind_ok, exceptPure]
    · split
      · simp
      · next hle => simp only [List.length_cons, Nat.not_lt] at hle ⊢; omega
  · refine ⟨{ s with generatedCodes := StoredJson.wellFormed ([x11, x10, x9, x8, x7, x6, x5, x4, x3, x2].map (fun y => y.1.toRaw y.2.1 y.2.2)) }, ?_, ?_⟩
    · simp [codeCreateSeq, codeCreateFallback, readCollection, hinit,
        exceptBind_ok, exceptPure]
    · refine ⟨_, by simp [codeGetAllFallback, readCollection, effectiveLimit,
        exceptBind_ok, exceptPure], rfl, by simp, ?_⟩
      intro hmem
      rw [List.mem_map] at hmem
      obtain ⟨y, hy, he⟩ := hmem
      have hy' : y ∈ [x2, x3, x4, x5, x6, x7, x8, x9, x10, x11] := by
        simp only [List.mem_cons, List.not_mem_nil, or_false] at hy ⊢
        tauto
      exact toRaw_ne_of_id_ne y.1 x1.1 y.2.2 x1.2.2 (hfresh y hy') he

/-- Witness for C2: eleven concrete creates with ids "1" .. "11" into the
empty store. -/
theorem generatedCode_cap_law_witness :
    (∀ (c : GeneratedCodeInput) (i t : String) (st : LocalStore) (l : List RawCode),
      readCollection st.generatedCodes = .ok l →
      ∃ r l', codeCreateFallback c i t st =
          .ok (r, { st with generatedCodes := .wellFormed l' }) ∧ l'.length ≤ 10) ∧
    ∃ s', codeCreateSeq [exTriple 1, exTriple 2, exTriple 3, exTriple 4, exTriple 5,
        exTriple 6, exTriple 7, exTriple 8, exTriple 9, exTriple 10, exTriple 11]
        exEmptyStore = .ok s' ∧
      ∃ out, codeGetAllFallback none s' = .ok out ∧
        out = [exTriple 11, exTriple 10, exTriple 9, exTriple 8, exTriple 7,
          exTriple 6, exTriple 5, exTriple 4, exTriple 3, exTriple 2].map
          (fun y => y.1.toRaw y.2.1 y.2.2) ∧
        out.length = 10 ∧
        (exTriple 1).1.toRaw (exTriple 1).2.1 (exTriple 1).2.2 ∉ out :=
  generatedCode_cap_law (exTriple 1) (exTriple 2) (exTriple 3) (exTriple 4)
    (exTriple 5) (exTriple 6) (exTriple 7) (exTriple 8) (exTriple 9)
    (exTriple 10) (exTriple 11) exEmptyStore rfl (by decide)

/-- The offline write-then-reconcile round trip is the identity on canonical
fields: the fallback create stores snake_case spellings only, so the read
reconciliation changes nothing. -/
theorem toRaw_roundtrip_canon (b : BuildLog) :
    (normalizePipeline b.toRaw).canon = b.canon := rfl

/-- The remote record stored for an input carries exactly the input's
canonical fields. -/
theorem remote_store_canon (b : BuildLog) (serverId : String) :
    RemoteBuildLog.canon { id := serverId, log := b } = b.canon := rfl

/-- C1: `create(input)` followed by `getById(input.build_id)` in the same
mode returns a record whose canonical fields equal the input's — offline via
the localStorage fallback, online via the spec-modelled remote store (the
input's `build_id` being fresh for the remote store, per the data model's
caller-uniqueness invariant). -/
theorem create_getById_roundtrip (probe : FetchOutcome) (b : BuildLog)
    (serverId : String) (w : World) (l : List RawPipeline)
    (hl : readCollection w.store.pipelines = .ok l)
    (hfresh : ∀ q ∈ w.remote.buildLogs, remoteMatches b.build_id q = false) :
    ∃ resp w', buildLogsCreate probe b serverId w = .ok (resp, w') ∧
      buildLogsGetById probe b.build_id w' = .ok b.canon := by
  cases hav : checkApiHealth probe with
  | false =>
    refine ⟨{ id := b.build_id, message := "Build log created (offline mode)" },
      { w with store := { w.store with pipelines := StoredJson.wellFormed (b.toRaw :: l) } },
      ?_, ?_⟩
    · simp [buildLogsCreate, hav, buildLogCreateFallback, hl, exceptBind_ok, exceptPure]
    · have hfind : (b.toRaw :: l).find? (pipelineMatches b.build_id) = some b.toRaw :=
        List.find?_cons_of_pos _ (by simp [pipelineMatches, BuildLog.toRaw])
      simp [buildLogsGetById, hav, buildLogGetByIdFallback, readCollection, hfind,
        exceptBind_ok, exceptPure, toRaw_roundtrip_canon]
  | true =>
    refine ⟨{ id := serverId, message := "Build log created" },
      { w with remote := { w.remote with
        buildLogs := w.remote.buildLogs ++ [{ id := serverId, log := b }] } }, ?_, ?_⟩
    · simp [buildLogsCreate, hav, remoteCreate]
    · have hnone : w.remote.buildLogs.find? (remoteMatches b.build_id) = none :=
        List.find?_eq_none.mpr (fun x hx => by simp [hfresh x hx])
      have hone : ([{ id := serverId, log := b }] : List RemoteBuildLog).find?
          (remoteMatches b.build_id) = some { id := serverId, log := b } :=
        List.find?_cons_of_pos _ (by simp [remoteMatches])
      simp [buildLogsGetById, hav, remoteGetById, List.find?_append, hnone, hone,
        exceptBind_ok, exceptPure, remote_store_canon]

/-- Witness for C1: creating the spec's §8 example input offline over a
concrete world and reading it back. -/
theorem create_getById_roundtrip_witness :
    ∃ resp w', buildLogsCreate .rejected exInput "srv-1" exWorld = .ok (resp, w') ∧
      buildLogsGetById .rejected exInput.build_id w' = .ok exInput.canon :=
  create_getById_roundtrip .rejected exInput "srv-1" exWorld [exCamel] rfl
    (by simp [exWorld])

/-- C4 counterexample: updating `end_time` of a fallback record stored with
a truthy legacy camelCase `endTime` is masked on read — `getById` returns
the stale legacy value, not the value just written. -/
theorem update_merge_masked_counterexample :
    ∃ s', buildLogUpdateFallback "X" exUpdate exCamelStore =
        .ok ({ message := "Build log updated (offline mode)" }, s') ∧
      ∃ q, buildLogGetByIdFallback "X" s' = .ok q ∧
        q.status = some "completed" ∧
        exUpdate.end_time = some "2024-01-01T00:06:00Z" ∧
        q.end_time = some "2024-01-01T00:05:00Z" ∧
        q.end_time ≠ exUpdate.end_time :=
  ⟨{ exCamelStore with pipelines := StoredJson.wellFormed [applyUpdate exCamel exUpdate] },
    rfl, normalizePipeline (applyUpdate exCamel exUpdate), rfl, rfl, rfl, rfl,
    by decide⟩

/-- C4 (amended): update followed by getById yields a record whose updated
fields equal the payload and whose other canonical fields are unchanged, in
offline mode (fallback store) and online mode (spec-modelled remote store)
alike — provided, in offline mode, that the stored record's legacy camelCase
`endTime` is not truthy or `end_time` is not among the updated fields
(otherwise the read reconciliation prefers the stale legacy spelling and
masks the update). -/
theorem update_merge_law (probe : FetchOutcome) (buildId : String)
    (d : UpdateData) (w : World)
    (hoff : checkApiHealth probe = false →
      ∃ l₁ p l₂, w.store.pipelines = StoredJson.wellFormed (l₁ ++ p :: l₂) ∧
        (∀ q ∈ l₁, pipelineMatches buildId q = false) ∧
        pipelineMatches buildId p = true ∧
        (truthy p.endTime = false ∨ d.end_time = none))
    (hon : checkApiHealth probe = true →
      ∃ l₁ q l₂, w.remote.buildLogs = l₁ ++ q :: l₂ ∧
        (∀ x ∈ l₁, remoteMatches buildId x = false) ∧
        remoteMatches buildId q = true) :
    ∃ c₀ m w' c₁,
      buildLogsGetById probe buildId w = .ok c₀ ∧
      buildLogsUpdate probe buildId d w = .ok (m, w') ∧
      buildLogsGetById probe buildId w' = .ok c₁ ∧
      c₁.status = overrideF d.status c₀.status ∧
      c₁.end_time = overrideF d.end_time c₀.end_time ∧
      c₁.output_log = overrideF d.output_log c₀.output_log ∧
      c₁.build_id = c₀.build_id ∧ c₁.type = c₀.type ∧
      c₁.start_time = c₀.start_time ∧ c₁.config = c₀.config ∧
      c₁.command = c₀.command ∧ c₁.jenkins_job = c₀.jenkins_job := by
  cases hav : checkApiHealth probe with
  | false =>
    obtain ⟨l₁, p, l₂, hs, h₁, hp, hmask⟩ := hoff hav
    obtain ⟨f1, f2, f3, f4⟩ := first_match_decomp (pipelineMatches buildId) l₁ p l₂ h₁ hp
    have hp' : pipelineMatches buildId (applyUpdate p d) = true := hp
    obtain ⟨g1, _, _, _⟩ :=
      first_match_decomp (pipelineMatches buildId) l₁ (applyUpdate p d) l₂ h₁ hp'
    refine ⟨(normalizePipeline p).canon,
      { message := "Build log updated (offline mode)" },
      { w with store := { w.store with
        pipelines := StoredJson.wellFormed (l₁ ++ applyUpdate p d :: l₂) } },
      (normalizePipeline (applyUpdate p d)).canon,
      ?_, ?_, ?_, rfl, ?_, rfl, rfl, rfl, rfl, rfl, rfl, rfl⟩
    · simp [buildLogsGetById, hav, buildLogGetByIdFallback, hs, readCollection,
        f1, exceptBind_ok, exceptPure]
    · simp [buildLogsUpdate, hav, buildLogUpdateFallback, hs, readCollection,
        f2, f3, f4, exceptBind_ok, exceptPure]
    · simp [buildLogsGetById, hav, buildLogGetByIdFallback, readCollection,
        g1, exceptBind_ok, exceptPure]
    · rcases hmask with hm | hm <;>
        simp [RawPipeline.canon, normalizePipeline, applyUpdate, jsOr, overrideF, hm]
  | true =>
    obtain ⟨l₁, q, l₂, hs, h₁, hq⟩ := hon hav
    obtain ⟨f1, f2, f3, f4⟩ := first_match_decomp (remoteMatches buildId) l₁ q l₂ h₁ hq
    have hq' : remoteMatches buildId (remoteMerge q d) = true := hq
    obtain ⟨g1, _, _, _⟩ :=
      first_match_decomp (remoteMatches buildId) l₁ (remoteMerge q d) l₂ h₁ hq'
    refine ⟨RemoteBuildLog.canon q, { message := "Build log updated" },
      { w with remote := { w.remote with buildLogs := l₁ ++ remoteMerge q d :: l₂ } },
      RemoteBuildLog.canon (remoteMerge q d),
      ?_, ?_, ?_, ?_, rfl, rfl, rfl, rfl, rfl, rfl, rfl, rfl⟩
    · simp [buildLogsGetById, hav, remoteGetById, hs, f1, exceptBind_ok, exceptPure]
    · simp [buildLogsUpdate, hav, remoteUpdate, hs, f2, f3, f4,
        exceptBind_ok, exceptPure]
    · simp [buildLogsGetById, hav, remoteGetById, g1, exceptBind_ok, exceptPure]
    · cases hd : d.status <;>
        simp [RemoteBuildLog.canon, BuildLog.canon, remoteMerge, overrideF, hd]

/-- Witness for C4's amended law: an offline update that changes status and
output_log of the concrete camelCase record. -/
theorem update_merge_law_witness :
    ∃ c₀ m w' c₁,
      buildLogsGetById .rejected "X" exWorld = .ok c₀ ∧
      buildLogsUpdate .rejected "X" exUpdateNoEnd exWorld = .ok (m, w') ∧
      buildLogsGetById .rejected "X" w' = .ok c₁ ∧
      c₁.status = overrideF exUpdateNoEnd.status c₀.status ∧
      c₁.end_time = overrideF exUpdateNoEnd.end_time c₀.end_time ∧
      c₁.output_log = overrideF exUpdateNoEnd.output_log c₀.output_log ∧
      c₁.build_id = c₀.build_id ∧ c₁.type = c₀.type ∧
      c₁.start_time = c₀.start_time ∧ c₁.config = c₀.config ∧
      c₁.command = c₀.command ∧ c₁.jenkins_job = c₀.jenkins_job :=
  update_merge_law .rejected "X" exUpdateNoEnd exWorld
    (fun _ => ⟨[], exCamel, [], rfl, by simp, by decide, Or.inr rfl⟩)
    (fun h => by simp [checkApiHealth] at h)

end FrameworkHub
